import Mathlib

/-!
Verification of the serial command protocol and mode-gated execution state
machine of the 6-DOF robotic arm firmware (src/controls/controls.ino with
constants from src/controls/controls_config.h).

The embedding models packets as lists of characters and translates the
Arduino String operations used by the firmware (startsWith, indexOf,
substring, toInt, toFloat, replace) together with the global state
(currentMode, jointTargetAngles, jointEnabled), the packet dispatcher
parseAndExecutePacket, the byte-level receiver listenPackets, and one pass
of loop().  Angle values are carried exactly as rationals; the firmware's
float rounding plays no role in any property proved here.
-/

set_option maxRecDepth 8000

namespace Controls

/-- Wire text is modelled as a list of characters. -/
abbrev Str := List Char

/-- Model of Arduino String.indexOf(substr): index of the first occurrence
of pat in the string, none when absent (the source's -1). -/
def findSub (pat : Str) : Str → Option Nat
  | [] => if pat = [] then some 0 else none
  | c :: rest =>
    if pat.isPrefixOf (c :: rest) then some 0
    else (findSub pat rest).map (· + 1)

/-- Model of Arduino String.indexOf(ch, fromIndex): first occurrence of the
character at or after position i. -/
def findCharFrom (ch : Char) (s : Str) (i : Nat) : Option Nat :=
  (findSub [ch] (s.drop i)).map (· + i)

/-- Model of Arduino String.substring(from, to): the characters in [a, b). -/
def substr (s : Str) (a b : Nat) : Str := (s.drop a).take (b - a)

/-- The value-terminator scan repeated throughout parseAndExecutePacket
(controls.ino lines 275-277, 287-289, 305-307, 323-325, 348-350):
indexOf(',', pos), else indexOf('\n', pos), else the packet length. -/
def valueEnd (packet : Str) (pos : Nat) : Nat :=
  match findCharFrom ',' packet pos with
  | some e => e
  | none =>
    match findCharFrom '\n' packet pos with
    | some e => e
    | none => packet.length

/-- Decimal value of a digit string (used by the toInt/toFloat models). -/
def natOfDigits (s : Str) : Nat := s.foldl (fun a c => a * 10 + (c.toNat - 48)) 0

/-- Model of Arduino String.toInt (C atol): skip spaces/tabs, optional sign,
value of the leading digit run; 0 when there are no digits. -/
def strToInt (s : Str) : Int :=
  let t := s.dropWhile (fun c => c == ' ' || c == '\t')
  match t with
  | '-' :: r => - (natOfDigits (r.takeWhile Char.isDigit) : Int)
  | '+' :: r => (natOfDigits (r.takeWhile Char.isDigit) : Int)
  | _ => (natOfDigits (t.takeWhile Char.isDigit) : Int)

/-- Model of Arduino String.toFloat (C atof) over ℚ, exact for the plain
decimal forms the protocol uses: optional sign, integer digits, optional
'.' and fraction digits (exponent forms are not used by this protocol).
The value sign*(ip + fp/10^k) is built with mkRat so that it evaluates
by kernel reduction. -/
def strToFloat (s : Str) : Rat :=
  let t := s.dropWhile (fun c => c == ' ' || c == '\t')
  let sgn : Int := match t with | '-' :: _ => -1 | _ => 1
  let t2 : Str := match t with | '-' :: r => r | '+' :: r => r | _ => t
  let ip := t2.takeWhile Char.isDigit
  let r1 := t2.dropWhile Char.isDigit
  let fp : Str := match r1 with | '.' :: r => r.takeWhile Char.isDigit | _ => []
  mkRat (sgn * ((natOfDigits ip * 10 ^ fp.length + natOfDigits fp : Nat) : Int))
    (10 ^ fp.length)

/-- Model of Arduino String.replace(find, repl): every occurrence is
replaced, scanning left to right and never rescanning replaced text.
Fuel-based so the definition evaluates by kernel reduction; fuel equal to
the string length suffices because each step with a non-empty pattern
consumes at least one character. -/
def replaceAllAux (pat repl : Str) : Nat → Str → Str
  | 0, s => s
  | _ + 1, [] => []
  | fuel + 1, c :: rest =>
    if pat ≠ [] ∧ pat.isPrefixOf (c :: rest) then
      repl ++ replaceAllAux pat repl fuel ((c :: rest).drop pat.length)
    else
      c :: replaceAllAux pat repl fuel rest

/-- Arduino String.replace over the whole string. -/
def replaceAll (pat repl s : Str) : Str := replaceAllAux pat repl s.length s

/-! Constants from controls_config.h. -/

def NUM_JOINTS : Nat := 6
def PACKET_MAX_LEN : Nat := 256
def TELEM_INTERVAL_MS : Nat := 20
def MODE_IDLE : Int := 0
def MODE_CALIBRATION : Int := 1
def MODE_MOVE : Int := 2
def MODE_RESERVED : Int := 3
def CMD_SET_MODE : Str := "SET_MODE".toList
def CMD_JOINTS_TO_ANGLE : Str := "JOINTS_TO_ANGLE".toList
def CMD_JOINT_EN : Str := "JOINT_EN".toList
def CMD_ESTOP : Str := "ESTOP".toList
def CMD_CALIBRATE_JOINT : Str := "CALIBRATE_JOINT".toList
def TYPE_CMD : Str := "TYPE=CMD".toList
def TYPE_ACK : Str := "TYPE=ACK".toList

/-- The firmware's global mutable state (controls.ino lines 10-25):
current operating mode, per-joint target angles, per-joint enable flags. -/
structure RobotState where
  currentMode : Int
  jointTargetAngles : List Rat
  jointEnabled : List Bool
deriving DecidableEq

/-- Joint enable default for joint 1, controls_config.h line 63 (0 = disabled). -/
def DEFAULT_JOINT1_EN : Bool := false

/-- Joint enable default for joint 2, controls_config.h line 64 (1 = enabled). -/
def DEFAULT_JOINT2_EN : Bool := true

/-- Joint enable default for joint 3, controls_config.h line 65 (1 = enabled). -/
def DEFAULT_JOINT3_EN : Bool := true

/-- Joint enable default for joint 4, controls_config.h line 66 (1 = enabled). -/
def DEFAULT_JOINT4_EN : Bool := true

/-- Joint enable default for joint 5, controls_config.h line 67 (1 = enabled). -/
def DEFAULT_JOINT5_EN : Bool := true

/-- Joint enable default for joint 6, controls_config.h line 68 (0 = disabled). -/
def DEFAULT_JOINT6_EN : Bool := false

/-- The global initializers, controls.ino lines 10-25: mode IDLE, zero
target angles, and jointEnabled from the DEFAULT_JOINTn_EN config values. -/
def initState : RobotState :=
  { currentMode := MODE_IDLE
  , jointTargetAngles := List.replicate NUM_JOINTS 0
  , jointEnabled := [DEFAULT_JOINT1_EN, DEFAULT_JOINT2_EN, DEFAULT_JOINT3_EN,
      DEFAULT_JOINT4_EN, DEFAULT_JOINT5_EN, DEFAULT_JOINT6_EN] }

/-- setup() (controls.ino line 433) re-asserts currentMode = MODE_IDLE;
hardware initialization has no effect on the modelled state. -/
def setup (st : RobotState) : RobotState := { st with currentMode := MODE_IDLE }

/-- sendAck (controls.ino lines 228-237): the ACK text is the original
packet with "TYPE=CMD" replaced by "TYPE=ACK" (Arduino String.replace,
which replaces every occurrence). -/
def sendAck (packet : Str) : Str := replaceAll TYPE_CMD TYPE_ACK packet

/-- The SET_MODE branch of parseAndExecutePacket (controls.ino lines 283-297).
Returns the new state and the list of serial lines emitted. -/
def setModeHandler (st : RobotState) (packet : Str) : RobotState × List Str :=
  match findSub ("MODE=".toList) packet with
  | none => (st, [])
  | some modePos =>
    let modeEnd := valueEnd packet modePos
    let newMode := strToInt (substr packet (modePos + 5) modeEnd)
    if 0 ≤ newMode ∧ newMode ≤ 3 then
      ({ st with currentMode := newMode }, [sendAck packet])
    else (st, [])

/-- The per-joint key "JOINT_<i>_ANG=" built at controls.ino line 302. -/
def jointAngleKey (i : Nat) : Str :=
  "JOINT_".toList ++ (toString i).toList ++ "_ANG=".toList

/-- The per-joint key "JOINT_<i>_EN=" built at controls.ino line 320. -/
def jointEnKey (i : Nat) : Str :=
  "JOINT_".toList ++ (toString i).toList ++ "_EN=".toList

/-- One iteration of the JOINTS_TO_ANGLE extraction loop
(controls.ino lines 301-312) for joint number i (1-based). -/
def jointsToAngleApply (packet : Str) (angles : List Rat) (i : Nat) : List Rat :=
  let key := jointAngleKey i
  match findSub key packet with
  | none => angles
  | some pos =>
    let e := valueEnd packet pos
    let angle := strToFloat (substr packet (pos + key.length) e)
    angles.set (i - 1) angle

/-- The JOINTS_TO_ANGLE branch (controls.ino lines 299-315): update each
joint whose key is present, then always ACK. -/
def jointsToAngleHandler (st : RobotState) (packet : Str) : RobotState × List Str :=
  ({ st with jointTargetAngles :=
      ((List.range NUM_JOINTS).foldl (fun a j => jointsToAngleApply packet a (j + 1))
        st.jointTargetAngles) },
   [sendAck packet])

/-- One iteration of the JOINT_EN extraction loop (controls.ino lines 319-329). -/
def jointEnApply (packet : Str) (flags : List Bool) (i : Nat) : List Bool :=
  let key := jointEnKey i
  match findSub key packet with
  | none => flags
  | some pos =>
    let e := valueEnd packet pos
    let enabled := strToInt (substr packet (pos + key.length) e)
    flags.set (i - 1) (enabled == 1)

/-- The JOINT_EN branch (controls.ino lines 317-333). -/
def jointEnHandler (st : RobotState) (packet : Str) : RobotState × List Str :=
  ({ st with jointEnabled :=
      ((List.range NUM_JOINTS).foldl (fun f j => jointEnApply packet f (j + 1))
        st.jointEnabled) },
   [sendAck packet])

/-- The ESTOP branch (controls.ino lines 335-342): disable every joint,
then ACK. -/
def estopHandler (st : RobotState) (packet : Str) : RobotState × List Str :=
  ({ st with jointEnabled := st.jointEnabled.map (fun _ => false) }, [sendAck packet])

/-- The CALIBRATE_JOINT branch (controls.ino lines 344-357): the JOINT_ID
extraction feeds only a commented-out TODO, so the handler has no state
effect; it always ACKs. -/
def calibrateJointHandler (st : RobotState) (packet : Str) : RobotState × List Str :=
  (st, [sendAck packet])

/-- parseAndExecutePacket (controls.ino lines 269-358): require the
"TYPE=CMD" prefix, locate "CMD=", extract the command name up to the next
comma (or newline, or end), and dispatch.  The result pairs the new state
with the list of serial lines emitted (the ACKs). -/
def parseAndExecutePacket (st : RobotState) (packet : Str) : RobotState × List Str :=
  if TYPE_CMD.isPrefixOf packet then
    match findSub ("CMD=".toList) packet with
    | none => (st, [])
    | some cmdStart =>
      let cmdEnd := valueEnd packet cmdStart
      let cmd := substr packet (cmdStart + 4) cmdEnd
      if cmd = CMD_SET_MODE then setModeHandler st packet
      else if cmd = CMD_JOINTS_TO_ANGLE then jointsToAngleHandler st packet
      else if cmd = CMD_JOINT_EN then jointEnHandler st packet
      else if cmd = CMD_ESTOP then estopHandler st packet
      else if cmd = CMD_CALIBRATE_JOINT then calibrateJointHandler st packet
      else (st, [])
  else (st, [])

/-- The receiver's state: the robot state plus the partial-line buffer
inLine (controls.ino line 243). -/
structure SerialState where
  robot : RobotState
  inLine : Str
deriving DecidableEq

/-- One byte of listenPackets (controls.ino lines 246-266): carriage
returns are skipped; a newline completes the buffered line (parsed when
non-empty) and clears the buffer; any other byte is appended, and the
buffer is cleared when its length would exceed PACKET_MAX_LEN. -/
def listenStep (acc : SerialState × List Str) (b : Char) : SerialState × List Str :=
  if b = '\r' then acc
  else if b = '\n' then
    if acc.1.inLine ≠ [] then
      let r := parseAndExecutePacket acc.1.robot acc.1.inLine
      (⟨r.1, []⟩, acc.2 ++ r.2)
    else (⟨acc.1.robot, []⟩, acc.2)
  else
    let nl := acc.1.inLine ++ [b]
    if nl.length > PACKET_MAX_LEN then (⟨acc.1.robot, []⟩, acc.2)
    else (⟨acc.1.robot, nl⟩, acc.2)

/-- listenPackets drains every currently buffered input byte (the source's
while (Serial.available() > 0) loop), accumulating all emitted lines. -/
def listenPackets (ss : SerialState) (input : List Char) : SerialState × List Str :=
  input.foldl listenStep (ss, [])

/-- An observable serial output of one loop() pass: an ACK line, or a
telemetry (TYPE=DATA) emission.  Telemetry content is encoder/hardware
data, outside the modelled state. -/
inductive OutEvent where
  | ack (line : Str)
  | telemetry
deriving DecidableEq

/-- State carried across loop() passes: the receiver state plus the
telemetry timer lastTelemMs (controls.ino line 403). -/
structure LoopState where
  serial : SerialState
  lastTelemMs : Nat
deriving DecidableEq

/-- One pass of loop() (controls.ino lines 439-480): (1) listenPackets
drains and processes every currently buffered byte; (2) if the telemetry
interval elapsed AND no new input bytes are pending (Serial.available()
at the check) then the timer is reset and, in CALIBRATION or MOVE mode,
one telemetry packet is sent; (3) the mode-specific functions are stubs
with no observable effect.  Timestamps are Nat milliseconds (millis()
wraparound, ~49.7 days, is not modelled). `buffered` holds the bytes
available when listenPackets runs; `pending` the bytes that have arrived
by the time of the Serial.available() telemetry check. -/
def loopIter (ls : LoopState) (buffered pending : List Char) (now : Nat) :
    LoopState × List OutEvent :=
  let d := listenPackets ls.serial buffered
  let cmdEvents := d.2.map OutEvent.ack
  if TELEM_INTERVAL_MS ≤ now - ls.lastTelemMs then
    if pending = [] then
      if d.1.robot.currentMode = MODE_CALIBRATION ∨ d.1.robot.currentMode = MODE_MOVE then
        (⟨d.1, now⟩, cmdEvents ++ [OutEvent.telemetry])
      else (⟨d.1, now⟩, cmdEvents)
    else (⟨d.1, ls.lastTelemMs⟩, cmdEvents)
  else (⟨d.1, ls.lastTelemMs⟩, cmdEvents)

/-- The net effect of the ordinary-character branch of listenStep on the
line buffer over a run of non-newline bytes: append each byte, clearing
the buffer whenever its length would exceed PACKET_MAX_LEN
(controls.ino lines 260-263). -/
def accumBuf (buf : Str) : Str → Str
  | [] => buf
  | c :: cs =>
    if (buf ++ [c]).length > PACKET_MAX_LEN then accumBuf [] cs
    else accumBuf (buf ++ [c]) cs

/-- The mode-range invariant maintained by the firmware: currentMode stays
in 0..3 (the closed enumeration IDLE, CALIBRATION, MOVE, RESERVED). -/
def modeInv (st : RobotState) : Prop :=
  0 ≤ st.currentMode ∧ st.currentMode ≤ 3

/-! Concrete packets and states used by the claim theorems. -/

/-- The ESTOP packet of the protocol schema. -/
def estopPkt : Str := "TYPE=CMD,CMD=ESTOP,STOP=ALL".toList

/-- The ACK the firmware sends for estopPkt. -/
def estopAck : Str := "TYPE=ACK,CMD=ESTOP,STOP=ALL".toList

/-- A state in MOVE mode with every joint enabled. -/
def stAllEnabled : RobotState :=
  ⟨MODE_MOVE, List.replicate 6 0, List.replicate 6 true⟩

/-- A state in CALIBRATION mode. -/
def stCalibration : RobotState :=
  ⟨MODE_CALIBRATION, List.replicate 6 0, List.replicate 6 false⟩

/-- An ESTOP packet that also contains the text TYPE=CMD inside a later
field value. -/
def doubleTypePkt : Str := "TYPE=CMD,CMD=ESTOP,STOP=ALL,NOTE=TYPE=CMD".toList

/-- A 285-byte input line (exceeding PACKET_MAX_LEN = 256): 257 filler
bytes followed by a complete SET_MODE command text. -/
def oversizedLine : Str :=
  List.replicate 257 'X' ++ "TYPE=CMD,CMD=SET_MODE,MODE=2".toList

/-- A loop state at startup. -/
def loopDemoState : LoopState := ⟨⟨setup initState, []⟩, 0⟩

/-! Helper lemmas. -/

/-- Every branch of parseAndExecutePacket emits either nothing or exactly
the single line sendAck packet. -/
theorem acks_nil_or_sendAck (st : RobotState) (packet : Str) :
    (parseAndExecutePacket st packet).2 = [] ∨
    (parseAndExecutePacket st packet).2 = [sendAck packet] := by
  unfold parseAndExecutePacket
  split
  · split
    · left; rfl
    · dsimp only
      split
      · unfold setModeHandler
        split
        · left; rfl
        · dsimp only
          split
          · right; rfl
          · left; rfl
      · split
        · right; rfl
        · split
          · right; rfl
          · split
            · right; rfl
            · split
              · right; rfl
              · left; rfl
  · left; rfl

/-- When the pattern does not occur in s, replaceAllAux leaves s unchanged
(for any fuel). -/
theorem replaceAllAux_of_no_occur (pat repl : Str) :
    ∀ (fuel : Nat) (s : Str), findSub pat s = none → replaceAllAux pat repl fuel s = s := by
  intro fuel
  induction fuel with
  | zero => intro s _; rfl
  | succ n ih =>
    intro s hs
    cases s with
    | nil => rfl
    | cons c rest =>
      have hpre : ¬ pat.isPrefixOf (c :: rest) := by
        intro hp
        unfold findSub at hs
        rw [if_pos hp] at hs
        exact Option.noConfusion hs
      have hrest : findSub pat rest = none := by
        unfold findSub at hs
        rw [if_neg hpre] at hs
        exact Option.map_eq_none'.mp hs
      unfold replaceAllAux
      rw [if_neg (fun hcond => hpre hcond.2)]
      rw [ih rest hrest]

/-- One replacement step at the head: when the pattern is a prefix of s
and occurs nowhere later, Arduino replace yields repl followed by the
rest of s. -/
theorem replaceAll_head_only (pat repl s : Str) (hp : pat ≠ [])
    (hpre : pat.isPrefixOf s) (hno : findSub pat (s.drop pat.length) = none) :
    replaceAll pat repl s = repl ++ s.drop pat.length := by
  cases s with
  | nil =>
    cases pat with
    | nil => exact absurd rfl hp
    | cons a as => simp [List.isPrefixOf] at hpre
  | cons c rest =>
    show replaceAllAux pat repl (rest.length + 1) (c :: rest) = _
    unfold replaceAllAux
    rw [if_pos ⟨hp, hpre⟩]
    rw [replaceAllAux_of_no_occur pat repl rest.length ((c :: rest).drop pat.length) hno]

/-- The SET_MODE handler keeps currentMode inside 0..3. -/
theorem modeInv_setModeHandler (st : RobotState) (p : Str) (h : modeInv st) :
    modeInv (setModeHandler st p).1 := by
  unfold setModeHandler
  split
  · exact h
  · dsimp only
    split
    · next hc => exact hc
    · exact h

/-- parseAndExecutePacket keeps currentMode inside 0..3. -/
theorem modeInv_parse (st : RobotState) (p : Str) (h : modeInv st) :
    modeInv (parseAndExecutePacket st p).1 := by
  unfold parseAndExecutePacket
  split
  · split
    · exact h
    · dsimp only
      split
      · exact modeInv_setModeHandler st p h
      · split
        · exact h
        · split
          · exact h
          · split
            · exact h
            · split
              · exact h
              · exact h
  · exact h

/-- Each byte of listenPackets keeps currentMode inside 0..3. -/
theorem modeInv_listenStep (acc : SerialState × List Str) (b : Char)
    (h : modeInv acc.1.robot) : modeInv ((listenStep acc b).1.robot) := by
  unfold listenStep
  split
  · exact h
  · split
    · split
      · exact modeInv_parse _ _ h
      · exact h
    · dsimp only
      split
      · exact h
      · exact h

/-- Folding listenStep over any input keeps currentMode inside 0..3. -/
theorem modeInv_foldl : ∀ (input : List Char) (acc : SerialState × List Str),
    modeInv acc.1.robot → modeInv ((input.foldl listenStep acc).1.robot) := by
  intro input
  induction input with
  | nil => intro acc h; exact h
  | cons c cs ih => intro acc h; exact ih _ (modeInv_listenStep acc c h)

/-- Folding listenStep over newline-free ordinary bytes only accumulates
the line buffer per accumBuf: no packet is parsed, no output emitted. -/
theorem foldl_listenStep_ordinary :
    ∀ (chars : List Char) (robot : RobotState) (buf : Str) (outs : List Str),
    (∀ c ∈ chars, c ≠ '\n' ∧ c ≠ '\r') →
    chars.foldl listenStep (⟨robot, buf⟩, outs) = (⟨robot, accumBuf buf chars⟩, outs) := by
  intro chars
  induction chars with
  | nil => intro robot buf outs _; rfl
  | cons c cs ih =>
    intro robot buf outs hall
    have hc := hall c (List.mem_cons_self c cs)
    have hcs : ∀ x ∈ cs, x ≠ '\n' ∧ x ≠ '\r' :=
      fun x hx => hall x (List.mem_cons_of_mem c hx)
    rw [List.foldl_cons]
    have hstep : listenStep (⟨robot, buf⟩, outs) c =
        if (buf ++ [c]).length > PACKET_MAX_LEN then (⟨robot, []⟩, outs)
        else (⟨robot, buf ++ [c]⟩, outs) := by
      unfold listenStep
      rw [if_neg hc.2, if_neg hc.1]
    rw [hstep]
    unfold accumBuf
    by_cases hover : (buf ++ [c]).length > PACKET_MAX_LEN
    · rw [if_pos hover, if_pos hover, ih robot [] outs hcs]
    · rw [if_neg hover, if_neg hover, ih robot (buf ++ [c]) outs hcs]

/-- accumBuf never lets the buffer exceed PACKET_MAX_LEN. -/
theorem accumBuf_length_le : ∀ (cs buf : Str), buf.length ≤ PACKET_MAX_LEN →
    (accumBuf buf cs).length ≤ PACKET_MAX_LEN := by
  intro cs
  induction cs with
  | nil => intro buf h; exact h
  | cons c cs ih =>
    intro buf h
    unfold accumBuf
    by_cases hover : (buf ++ [c]).length > PACKET_MAX_LEN
    · rw [if_pos hover]; exact ih [] (Nat.zero_le _)
    · rw [if_neg hover]; exact ih _ (Nat.le_of_not_lt hover)

/-- Feeding exactly enough filler characters to overflow the buffer once
clears it, leaving the remaining bytes to accumulate afresh. -/
theorem accumBuf_fill : ∀ (k : Nat) (buf rest : Str),
    buf.length + k = PACKET_MAX_LEN + 1 → 1 ≤ k →
    accumBuf buf (List.replicate k 'X' ++ rest) = accumBuf [] rest := by
  intro k
  induction k with
  | zero => intro buf rest _ h1; omega
  | succ n ih =>
    intro buf rest hlen _
    rw [List.replicate_succ, List.cons_append]
    show (if (buf ++ ['X']).length > PACKET_MAX_LEN
        then accumBuf [] (List.replicate n 'X' ++ rest)
        else accumBuf (buf ++ ['X']) (List.replicate n 'X' ++ rest)) = accumBuf [] rest
    rcases Nat.eq_zero_or_pos n with hn | hn
    · subst hn
      rw [if_pos (by simp; omega)]
      rfl
    · rw [if_neg (by simp; omega)]
      exact ih (buf ++ ['X']) rest (by simp; omega) hn

/-- The accumulated buffer is always a suffix of the bytes fed in. -/
theorem accumBuf_suffix : ∀ (cs buf : Str),
    List.IsSuffix (accumBuf buf cs) (buf ++ cs) := by
  intro cs
  induction cs with
  | nil => intro buf; rw [List.append_nil]; exact List.suffix_refl buf
  | cons c cs ih =>
    intro buf
    unfold accumBuf
    by_cases hover : (buf ++ [c]).length > PACKET_MAX_LEN
    · rw [if_pos hover]
      exact (ih []).trans ⟨buf ++ [c], by simp⟩
    · rw [if_neg hover]
      simpa using ih (buf ++ [c])

/-! Claim theorems. -/

/-- C1: the claim says a JOINTS_TO_ANGLE command received while the mode
is not MOVE is rejected (ModeNotAllowed) with no state mutation and no
ACK.  The firmware has no mode gating: evaluated at the failing input —
mode CALIBRATION and a packet carrying the key the firmware scans for —
the command executes, the target angle of joint 1 is mutated to 45.5,
and an ACK is emitted. -/
theorem jointsToAngle_executes_in_calibration :
    stCalibration.currentMode = MODE_CALIBRATION
    ∧ parseAndExecutePacket stCalibration
        ("TYPE=CMD,CMD=JOINTS_TO_ANGLE,JOINT_1_ANG=45.5".toList) =
      (⟨MODE_CALIBRATION, [mkRat 91 2, 0, 0, 0, 0, 0], List.replicate 6 false⟩,
       ["TYPE=ACK,CMD=JOINTS_TO_ANGLE,JOINT_1_ANG=45.5".toList]) := by
  decide

/-- C2 counterexample: executing SET_MODE with MODE=0 (IDLE) from MOVE
mode with every joint enabled sets the mode to IDLE but leaves every
enable flag true — entry into IDLE does not force the flags false, so
the claim fails at this input. -/
theorem setMode_idle_keeps_enabled_cex :
    parseAndExecutePacket stAllEnabled ("TYPE=CMD,CMD=SET_MODE,MODE=0".toList) =
      (⟨MODE_IDLE, List.replicate 6 0, List.replicate 6 true⟩,
       ["TYPE=ACK,CMD=SET_MODE,MODE=0".toList])
    ∧ ¬ (∀ b ∈ (parseAndExecutePacket stAllEnabled
          ("TYPE=CMD,CMD=SET_MODE,MODE=0".toList)).1.jointEnabled, b = false) := by
  decide

/-- C2 amended: a SET_MODE command with MODE=0 sets the current mode to
IDLE and sends one ACK, leaving the joint enable flags (and target
angles) unchanged for every prior state. -/
theorem setMode_idle_amended (st : RobotState) :
    parseAndExecutePacket st ("TYPE=CMD,CMD=SET_MODE,MODE=0".toList) =
      ({ st with currentMode := MODE_IDLE }, ["TYPE=ACK,CMD=SET_MODE,MODE=0".toList]) := by
  rfl

/-- C3: processing the ESTOP packet TYPE=CMD,CMD=ESTOP,STOP=ALL from any
prior state forces every joint enable flag false, leaves the mode and
target angles unchanged, and emits exactly one ACK: the received text
with TYPE=CMD replaced by TYPE=ACK. -/
theorem estop_disables_all_and_acks (st : RobotState) :
    (parseAndExecutePacket st estopPkt).1.jointEnabled =
      st.jointEnabled.map (fun _ => false)
    ∧ (∀ b ∈ (parseAndExecutePacket st estopPkt).1.jointEnabled, b = false)
    ∧ (parseAndExecutePacket st estopPkt).1.currentMode = st.currentMode
    ∧ (parseAndExecutePacket st estopPkt).1.jointTargetAngles = st.jointTargetAngles
    ∧ (parseAndExecutePacket st estopPkt).2 = [estopAck] := by
  refine ⟨rfl, ?_, rfl, rfl, rfl⟩
  intro b hb
  have h : (parseAndExecutePacket st estopPkt).1.jointEnabled =
      st.jointEnabled.map (fun _ => false) := rfl
  rw [h] at hb
  rcases List.mem_map.mp hb with ⟨a, _, hfb⟩
  exact hfb.symm

/-- C4 counterexample: the packet doubleTypePkt is successfully executed
(its CMD is ESTOP), yet its ACK is not the received text with only the
TYPE field changed: Arduino String.replace rewrites the second
occurrence of TYPE=CMD (inside the NOTE field value) as well, so the
other fields are not preserved byte-for-byte. -/
theorem ack_echo_not_bytewise_cex :
    (parseAndExecutePacket initState doubleTypePkt).2 =
      ["TYPE=ACK,CMD=ESTOP,STOP=ALL,NOTE=TYPE=ACK".toList]
    ∧ ("TYPE=ACK,CMD=ESTOP,STOP=ALL,NOTE=TYPE=ACK".toList : Str) ≠
      ("TYPE=ACK,CMD=ESTOP,STOP=ALL,NOTE=TYPE=CMD".toList : Str) := by
  decide

/-- C4 amended: every executed packet emits either no ACK or exactly one
ACK, whose text is the received text with every occurrence of TYPE=CMD
replaced by TYPE=ACK; and whenever TYPE=CMD occurs only as the leading
TYPE field (as in every schema-conformant command), this preserves all
bytes after the TYPE field unchanged. -/
theorem ack_echo_amended (st : RobotState) (packet : Str) :
    ((parseAndExecutePacket st packet).2 = [] ∨
      (parseAndExecutePacket st packet).2 = [replaceAll TYPE_CMD TYPE_ACK packet])
    ∧ (TYPE_CMD.isPrefixOf packet → findSub TYPE_CMD (packet.drop 8) = none →
        replaceAll TYPE_CMD TYPE_ACK packet = TYPE_ACK ++ packet.drop 8) := by
  constructor
  · exact acks_nil_or_sendAck st packet
  · intro hpre hno
    have h8 : TYPE_CMD.length = 8 := rfl
    have := replaceAll_head_only TYPE_CMD TYPE_ACK packet (by decide) hpre
    rw [h8] at this
    exact this hno

/-- C4 witness: the amended theorem applied at the concrete ESTOP packet. -/
theorem ack_echo_amended_witness :
    ((parseAndExecutePacket initState estopPkt).2 = [] ∨
      (parseAndExecutePacket initState estopPkt).2 = [replaceAll TYPE_CMD TYPE_ACK estopPkt])
    ∧ replaceAll TYPE_CMD TYPE_ACK estopPkt = TYPE_ACK ++ estopPkt.drop 8 :=
  ⟨(ack_echo_amended initState estopPkt).1,
   (ack_echo_amended initState estopPkt).2 (by decide) (by decide)⟩

/-- C5: the claim says each JOINT_i_ANGLE field present is assigned to
that joint's target.  Evaluated at the failing input: the packet carries
JOINT_1_ANGLE=45.5 (the key at index 29), the firmware scans for
JOINT_1_ANG= which never matches it, so every target angle stays 0 — yet
the ACK is still sent. -/
theorem jointsToAngle_angleField_ignored :
    findSub ("JOINT_1_ANGLE=".toList)
        ("TYPE=CMD,CMD=JOINTS_TO_ANGLE,JOINT_1_ANGLE=45.5".toList) = some 29
    ∧ parseAndExecutePacket stAllEnabled
        ("TYPE=CMD,CMD=JOINTS_TO_ANGLE,JOINT_1_ANGLE=45.5".toList) =
      (stAllEnabled, ["TYPE=ACK,CMD=JOINTS_TO_ANGLE,JOINT_1_ANGLE=45.5".toList])
    ∧ stAllEnabled.jointTargetAngles = List.replicate 6 0
    ∧ mkRat 91 2 ≠ 0 := by
  decide

/-- C6: in every loop() pass, the events emitted are exactly the ACKs of
fully draining the buffered input, optionally followed by one telemetry
emission; the resulting receiver state is the fully drained state; and
on any pass with pending unread input bytes no telemetry is emitted at
all — commands are strictly prioritized over telemetry. -/
theorem loop_commands_first (ls : LoopState) (buffered pending : List Char) (now : Nat) :
    ((loopIter ls buffered pending now).2 =
        (listenPackets ls.serial buffered).2.map OutEvent.ack
      ∨ (loopIter ls buffered pending now).2 =
        (listenPackets ls.serial buffered).2.map OutEvent.ack ++ [OutEvent.telemetry])
    ∧ (loopIter ls buffered pending now).1.serial = (listenPackets ls.serial buffered).1
    ∧ (pending ≠ [] → (loopIter ls buffered pending now).2 =
        (listenPackets ls.serial buffered).2.map OutEvent.ack) := by
  unfold loopIter
  dsimp only
  split
  · split
    · next hpe =>
      split
      · exact ⟨Or.inr rfl, rfl, fun hp => absurd hpe hp⟩
      · exact ⟨Or.inl rfl, rfl, fun _ => rfl⟩
    · exact ⟨Or.inl rfl, rfl, fun _ => rfl⟩
  · exact ⟨Or.inl rfl, rfl, fun _ => rfl⟩

/-- C6 witness: the theorem applied with an ESTOP line buffered, a
pending byte present, and the telemetry timer expired: no telemetry is
emitted on that pass. -/
theorem loop_commands_first_witness :
    (['T'] : List Char) ≠ []
    ∧ (loopIter loopDemoState ("TYPE=CMD,CMD=ESTOP,STOP=ALL\n".toList) ['T'] 100).2 =
      (listenPackets loopDemoState.serial
        ("TYPE=CMD,CMD=ESTOP,STOP=ALL\n".toList)).2.map OutEvent.ack :=
  ⟨by decide,
   (loop_commands_first loopDemoState ("TYPE=CMD,CMD=ESTOP,STOP=ALL\n".toList) ['T'] 100).2.2
     (by decide)⟩

/-- C7: the claim says the malformed line TYPE=CMD,CMD=SET_MODE,MODE=
(empty value) is dropped with no state mutation and no ACK.  Evaluated
at the failing input from MOVE mode: the firmware parses the empty value
with toInt() as 0, accepts it, switches the mode to IDLE and emits an
ACK. -/
theorem setMode_empty_value_executes :
    stAllEnabled.currentMode = MODE_MOVE
    ∧ parseAndExecutePacket stAllEnabled ("TYPE=CMD,CMD=SET_MODE,MODE=".toList) =
      (⟨MODE_IDLE, List.replicate 6 0, List.replicate 6 true⟩,
       ["TYPE=ACK,CMD=SET_MODE,MODE=".toList]) := by
  decide

/-- C8 counterexample: feeding the 285-byte line oversizedLine (over the
256-byte maximum) terminated by a newline, a remainder of the oversized
line IS parsed and executed as a packet: the mode changes to MOVE and an
ACK is emitted, so the line is not discarded wholesale. -/
theorem oversized_line_remainder_parsed_cex :
    oversizedLine.length = 285 ∧ PACKET_MAX_LEN = 256
    ∧ (listenPackets ⟨setup initState, []⟩ (oversizedLine ++ ['\n'])).1.robot.currentMode =
        MODE_MOVE
    ∧ (listenPackets ⟨setup initState, []⟩ (oversizedLine ++ ['\n'])).2 =
        ["TYPE=ACK,CMD=SET_MODE,MODE=2".toList] := by
  have hchars : ∀ c ∈ oversizedLine, c ≠ '\n' ∧ c ≠ '\r' := by decide
  have hacc : accumBuf [] oversizedLine = "TYPE=CMD,CMD=SET_MODE,MODE=2".toList := by
    have h1 : oversizedLine =
        List.replicate 257 'X' ++ "TYPE=CMD,CMD=SET_MODE,MODE=2".toList := rfl
    rw [h1, accumBuf_fill 257 [] _ (by decide) (by decide)]
    decide
  have hsplit : listenPackets ⟨setup initState, []⟩ (oversizedLine ++ ['\n']) =
      listenStep (⟨setup initState, accumBuf [] oversizedLine⟩, []) '\n' := by
    unfold listenPackets
    rw [List.foldl_append,
      foldl_listenStep_ordinary oversizedLine (setup initState) [] [] hchars]
    rfl
  rw [hsplit, hacc]
  refine ⟨?_, by decide, by decide, by decide⟩
  have h1 : oversizedLine =
      List.replicate 257 'X' ++ "TYPE=CMD,CMD=SET_MODE,MODE=2".toList := rfl
  rw [h1]
  simp

/-- C8 amended: on a line longer than PACKET_MAX_LEN the buffer is
cleared each time it would exceed PACKET_MAX_LEN, so the buffered prefix
is discarded — but the bytes after the last clear accumulate anew, and
that remainder (a proper suffix of the line, at most PACKET_MAX_LEN
bytes, computed by accumBuf) is parsed and executed as a packet when the
newline arrives; the line as a whole is never parsed. -/
theorem oversized_line_discard_amended (line : Str) (robot : RobotState)
    (hchars : ∀ c ∈ line, c ≠ '\n' ∧ c ≠ '\r')
    (hlen : line.length > PACKET_MAX_LEN) :
    (listenPackets ⟨robot, []⟩ (line ++ ['\n']) =
      (if accumBuf [] line = [] then ((⟨robot, []⟩ : SerialState), ([] : List Str))
       else (⟨(parseAndExecutePacket robot (accumBuf [] line)).1, []⟩,
             (parseAndExecutePacket robot (accumBuf [] line)).2)))
    ∧ (accumBuf [] line).length ≤ PACKET_MAX_LEN
    ∧ accumBuf [] line ≠ line
    ∧ List.IsSuffix (accumBuf [] line) line := by
  have hsuffix : List.IsSuffix (accumBuf [] line) line := by
    simpa using accumBuf_suffix line []
  have hlenle := accumBuf_length_le line [] (Nat.zero_le _)
  have hne : accumBuf [] line ≠ line := by
    intro he; rw [he] at hlenle; omega
  refine ⟨?_, hlenle, hne, hsuffix⟩
  unfold listenPackets
  rw [List.foldl_append]
  rw [foldl_listenStep_ordinary line robot [] [] hchars]
  show listenStep (⟨robot, accumBuf [] line⟩, []) '\n' = _
  unfold listenStep
  rw [if_neg (by decide : ¬ ('\n' : Char) = '\r'), if_pos rfl]
  by_cases hrem : accumBuf [] line = []
  · rw [if_neg (by simpa using hrem), if_pos hrem]
  · rw [if_pos (by simpa using hrem), if_neg hrem]
    dsimp only
    rw [List.nil_append]

/-- C8 witness: the amended theorem applied at the concrete 285-byte
line. -/
theorem oversized_line_discard_amended_witness :
    (∀ c ∈ oversizedLine, c ≠ '\n' ∧ c ≠ '\r')
    ∧ oversizedLine.length > PACKET_MAX_LEN
    ∧ accumBuf [] oversizedLine ≠ oversizedLine
    ∧ List.IsSuffix (accumBuf [] oversizedLine) oversizedLine :=
  ⟨by decide, by decide,
   (oversized_line_discard_amended oversizedLine (setup initState)
      (by decide) (by decide)).2.2⟩

/-- C9: the claim says that at startup the mode is IDLE and every one of
the six joint enable flags is false.  The mode part holds, but the
config defaults (DEFAULT_JOINTn_EN = 0,1,1,1,1,0) enable joints 2-5 and
setup() never touches jointEnabled, so at startup four flags are true —
contradicting the claim and the config's own comment that all joints
are disabled by default until a JOINT_EN command is received. -/
theorem startup_enables_assembled_joints :
    (setup initState).currentMode = MODE_IDLE
    ∧ (setup initState).jointEnabled = [false, true, true, true, true, false]
    ∧ ¬ (∀ b ∈ (setup initState).jointEnabled, b = false)
    ∧ initState.currentMode = MODE_IDLE
    ∧ initState.jointEnabled = [false, true, true, true, true, false] := by
  decide

/-- C10: starting from the startup state, after processing any byte
sequence through the receiver, the current mode lies in the closed
enumeration {IDLE, CALIBRATION, MOVE, RESERVED} = {0, 1, 2, 3}: the
SET_MODE handler is the only mutator and writes only values it has
checked to be between 0 and 3. -/
theorem mode_always_in_enumeration (input : List Char) :
    (listenPackets ⟨setup initState, []⟩ input).1.robot.currentMode = MODE_IDLE
    ∨ (listenPackets ⟨setup initState, []⟩ input).1.robot.currentMode = MODE_CALIBRATION
    ∨ (listenPackets ⟨setup initState, []⟩ input).1.robot.currentMode = MODE_MOVE
    ∨ (listenPackets ⟨setup initState, []⟩ input).1.robot.currentMode = MODE_RESERVED := by
  have h : modeInv ((input.foldl listenStep (⟨⟨setup initState, []⟩, []⟩ :
      SerialState × List Str)).1.robot) :=
    modeInv_foldl input _ ⟨by decide, by decide⟩
  have h2 : (listenPackets ⟨setup initState, []⟩ input).1.robot.currentMode =
      ((input.foldl listenStep (⟨⟨setup initState, []⟩, []⟩ :
        SerialState × List Str)).1.robot).currentMode := rfl
  rw [h2]
  rcases h with ⟨h0, h3⟩
  unfold MODE_IDLE MODE_CALIBRATION MODE_MOVE MODE_RESERVED
  omega

end Controls
